import Mathlib

/-!
Verification of the conversation-state and prompt-assembly core of the
pdf-analyzer Flask application (src/app.py), via a shallow embedding.

The embedding models:
 - `extract_text_from_pdf` (app.py lines 26-37) over the list of page texts
   produced by the PDF reader (a page whose extraction yields `None` or `""`
   is modelled as `""`, both being falsy in the source's `if page_text:` test);
 - `analyze_with_gemini`'s prompt construction (lines 40-61);
 - the `/upload`, `/chat` and `/reset` handlers (lines 81-175) as transition
   functions on the session state.

Persistence semantics of the session: the application uses Flask's default
client-side cookie sessions.  A value is persisted only when the handler
executes an assignment `session[key] = value` (which marks the session
modified); mutating a list obtained from `session.get` in place does not mark
the session modified, so on the exception path of `chat` (lines 163-168),
where no assignment runs, the persisted transcript is the one from before the
request.  The `Session` type below is this persisted state.  The in-place
mutation of the history list itself (lines 146-153) is modelled separately
with an explicit heap (`PyHeap`) where object identity matters.

Python's `str.strip()` is modelled for ASCII whitespace
(space, \t, \n, \r, \x0b, \x0c), which is what the claims exercise.
-/

inductive Role where
  | user
  | assistant
deriving DecidableEq, Repr

structure Turn where
  role : Role
  content : String
deriving DecidableEq, Repr

/-- Characters removed by Python's `str.strip()` (ASCII whitespace). -/
def isPySpace (c : Char) : Bool :=
  c = ' ' || c = '\t' || c = '\n' || c = '\r' || c = '\x0b' || c = '\x0c'

/-- Python `s.strip()`: drop leading and trailing whitespace. -/
def pyStrip (s : String) : String :=
  ⟨((s.data.dropWhile isPySpace).reverse.dropWhile isPySpace).reverse⟩

/-- app.py lines 20-23: the hidden system prompt (exact text, including the
trailing space at the end of each of the first three lines). -/
def SYSTEM_PROMPT : String :=
  "You are an advanced PhD-level specialist with expertise across multiple academic disciplines. \nAnalyze documents thoroughly, cite specific sections when relevant, and provide clear, well-structured responses. \nBe precise but accessible. When summarizing or answering questions about a document, ground your response \nin the actual content provided. Use markdown formatting for better readability."

/-- app.py lines 26-37: concatenate each page's extracted text followed by a
newline, skipping falsy (empty) page texts, then strip the result. -/
def extract_text_from_pdf (pages : List String) : String :=
  pyStrip (pages.foldl
    (fun text page_text => if page_text ≠ "" then text ++ page_text ++ "\n" else text) "")

/-- app.py lines 56-58: one history entry rendered into the prompt,
`"<Role>: <content>"` followed by a blank line. -/
def renderTurn (msg : Turn) : String :=
  (match msg.role with
    | Role.user => "User"
    | Role.assistant => "Assistant") ++ ": " ++ msg.content ++ "\n\n"

/-- app.py lines 46-60: the prompt string `analyze_with_gemini` sends to the
model, as a function of the document text and the conversation history it
receives (which, at the call site, already contains the new user message). -/
def analyze_prompt (document_text : String) (conversation_history : List Turn) : String :=
  SYSTEM_PROMPT ++ "\n\n--- DOCUMENT CONTENT ---\n" ++ document_text ++
    "\n--- END DOCUMENT ---\n\nBelow is the conversation so far. Continue naturally from here.\n\n"
    ++ conversation_history.foldl (fun acc msg => acc ++ renderTurn msg) ""
    ++ "Assistant: "

/-- The persisted per-user session state: `document_text` is present or absent
(`"document_text" in session`); `filename` and `chat_history` are read with
defaults `""` and `[]`, so absence is identified with those defaults. -/
structure Session where
  document_text : Option String
  filename : String
  chat_history : List Turn
deriving DecidableEq, Repr

/-- A fresh session (nothing stored yet). -/
def initSession : Session :=
  { document_text := none, filename := "", chat_history := [] }

/-- An uploaded file as the handler sees it: its filename and either the list
of page texts the PDF reader produces, or the exception raised while reading. -/
structure UploadedFile where
  filename : String
  pages : Except String (List String)
deriving Repr

inductive UploadResult where
  | ok
  | errNoFile
  | errNotPdf
  | errExtractionEmpty
  | errException (e : String)
deriving DecidableEq, Repr

/-- `s` ends with `t`: the last `t.length` characters of `s` are `t`. -/
def strEndsWith (s t : List Char) : Bool :=
  decide (s.reverse.take t.length = t.reverse)

/-- app.py line 95: `pdf_file.filename.lower().endswith(".pdf")`. -/
def hasPdfExt (filename : String) : Bool :=
  strEndsWith (filename.data.map Char.toLower) ".pdf".data

/-- app.py lines 81-118: the `/upload` handler as a transition on the
persisted session.  On every error path no session assignment runs, so the
persisted state is unchanged. -/
def upload (file : Option UploadedFile) (s : Session) : Session × UploadResult :=
  match file with
  | none => (s, UploadResult.errNoFile)
  | some f =>
    if f.filename = "" then (s, UploadResult.errNoFile)
    else if ¬ hasPdfExt f.filename then (s, UploadResult.errNotPdf)
    else
      match f.pages with
      | Except.error e => (s, UploadResult.errException e)
      | Except.ok pages =>
        let document_text := extract_text_from_pdf pages
        if document_text = "" then (s, UploadResult.errExtractionEmpty)
        else ({ document_text := some document_text,
                filename := f.filename,
                chat_history := [] }, UploadResult.ok)

inductive ChatResult where
  | ok (hist : List Turn)
  | errNoDocument
  | errEmptyMessage
  | errModel (e : String)
deriving DecidableEq, Repr

/-- app.py lines 121-168: the `/chat` handler as a transition on the persisted
session.  `llm` is the Gemini client (`model.generate_content`), returning the
reply text or the exception message.  On the exception path no session
assignment runs, so the persisted transcript stays what it was before the
request (the local list's in-place growth is not written back). -/
def chat (llm : String → Except String String) (s : Session) (question_raw : String) :
    Session × ChatResult :=
  match s.document_text with
  | none => (s, ChatResult.errNoDocument)
  | some document_text =>
    let question := pyStrip question_raw
    if question = "" then (s, ChatResult.errEmptyMessage)
    else
      let withUser := s.chat_history ++ [⟨Role.user, question⟩]
      match llm (analyze_prompt document_text withUser) with
      | Except.error e => (s, ChatResult.errModel e)
      | Except.ok response =>
        let newHist := withUser ++ [⟨Role.assistant, response⟩]
        ({ s with chat_history := newHist }, ChatResult.ok newHist)

/-- app.py lines 171-175: `session.clear()`. -/
def reset (_s : Session) : Session := initSession

/-- One completed request against the session. -/
inductive Event where
  | upload (file : Option UploadedFile)
  | chat (llm : String → Except String String) (question : String)
  | reset

/-- The session state after handling one request. -/
def stepS (s : Session) (e : Event) : Session :=
  match e with
  | Event.upload f => (upload f s).1
  | Event.chat llm q => (chat llm s q).1
  | Event.reset => reset s

/-- The session state after a sequence of requests starting from a fresh
session. -/
def runEvents (es : List Event) : Session := es.foldl stepS initSession

/-! ### A heap model for the in-place list operations of `chat`

Python lists are mutable heap objects; `session.get("chat_history", [])`
hands `chat` a reference to the stored list, and `chat_history.append(...)`
(app.py lines 147 and 153) mutates that object.  `PyHeap` makes this object
identity explicit: references are indices into the heap. -/

structure PyHeap where
  lists : List (List Turn)
deriving DecidableEq, Repr

/-- Dereference a list object (out-of-range reads give `[]`, unused). -/
def readRef (h : PyHeap) (r : Nat) : List Turn := h.lists.getD r []

/-- `obj.append(t)` on the list object `r`. -/
def appendRef (h : PyHeap) (r : Nat) (t : Turn) : PyHeap :=
  ⟨h.lists.set r (h.lists.getD r [] ++ [t])⟩

/-- app.py lines 146-153 as they act on the heap: append the user turn, then
the assistant turn, in place on the history object `r`. -/
def recordExchangeInPlace (h : PyHeap) (r : Nat) (u a : String) : PyHeap :=
  appendRef (appendRef h r ⟨Role.user, u⟩) r ⟨Role.assistant, a⟩

/-- The value of the history sequence after `chat`'s two appends (the
sequence `recordExchange` returns, read off the heap model). -/
def recordExchange (t : List Turn) (u a : String) : List Turn :=
  readRef (recordExchangeInPlace ⟨[t]⟩ 0 u a) 0

/-! ### Spec-side definitions (for refinement comparisons)

These two definitions follow the spec's words rather than the source and are
compared against the source-derived definitions in the theorems below. -/

/-- The turn line `"<Role>: <content>"` of one Turn. -/
def renderTurnLine (t : Turn) : String :=
  (match t.role with
    | Role.user => "User"
    | Role.assistant => "Assistant") ++ ": " ++ t.content

/-- Strings separated by blank lines, as the spec's prompt layout describes. -/
def joinBlankSep : List String → String
  | [] => ""
  | [x] => x
  | x :: y :: xs => x ++ "\n\n" ++ joinBlankSep (y :: xs)

/-- Modelled from the spec of C10's claimed layout: the concatenation, in page
order, of each page's extracted text followed by a newline, skipping pages
whose extraction yields no text. -/
def specPageConcat : List String → String
  | [] => ""
  | p :: ps => (if p = "" then "" else p ++ "\n") ++ specPageConcat ps

/-! ### Well-formedness of transcripts -/

/-- A transcript made of complete user-then-assistant exchanges. -/
def alternatesUA : List Turn → Bool
  | [] => true
  | ⟨Role.user, _⟩ :: ⟨Role.assistant, _⟩ :: rest => alternatesUA rest
  | _ => false

/-! ### Helper lemmas -/

theorem foldl_renderTurn_eq (l : List Turn) (init : String) :
    l.foldl (fun acc msg => acc ++ renderTurn msg) init =
      init ++ l.foldl (fun acc msg => acc ++ renderTurn msg) "" := by
  induction l generalizing init with
  | nil => simp
  | cons t ts ih =>
    simp only [List.foldl_cons]
    rw [ih (init ++ renderTurn t), ih ("" ++ renderTurn t)]
    simp [String.append_assoc]

theorem renderTurn_eq_line (t : Turn) : renderTurn t = renderTurnLine t ++ "\n\n" := by
  cases t with
  | mk role content => cases role <;> simp [renderTurn, renderTurnLine, String.append_assoc]

theorem foldl_renderTurn_append_one (l : List Turn) (t : Turn) :
    (l ++ [t]).foldl (fun acc msg => acc ++ renderTurn msg) "" =
      joinBlankSep ((l ++ [t]).map renderTurnLine) ++ "\n\n" := by
  induction l with
  | nil => simp [joinBlankSep, renderTurn_eq_line]
  | cons x xs ih =>
    simp only [List.cons_append, List.foldl_cons, List.map_cons]
    rw [foldl_renderTurn_eq]
    rw [ih]
    cases hxs : (xs ++ [t]).map renderTurnLine with
    | nil =>
      simp at hxs
    | cons y ys =>
      simp [joinBlankSep, renderTurn_eq_line, String.append_assoc]

theorem alternatesUA_even (l : List Turn) (h : alternatesUA l = true) :
    l.length % 2 = 0 := by
  induction l using alternatesUA.induct with
  | case1 => simp
  | case2 u a rest ih =>
    simp only [alternatesUA] at h
    simp only [List.length_cons]
    have := ih h
    omega
  | case3 t h0 h1 =>
    cases t with
    | nil => simp
    | cons x xs =>
      exfalso
      cases x with
      | mk role content =>
        cases role with
        | user =>
          cases xs with
          | nil => simp [alternatesUA] at h
          | cons y ys =>
            cases y with
            | mk role2 content2 =>
              cases role2 with
              | user => simp [alternatesUA] at h
              | assistant => exact h1 content content2 ys rfl
        | assistant => simp [alternatesUA] at h

theorem alternatesUA_chain (l : List Turn) (h : alternatesUA l = true) :
    List.Chain' (fun a b : Turn => a.role ≠ b.role) l := by
  induction l using alternatesUA.induct with
  | case1 => simp
  | case2 u a rest ih =>
    simp only [alternatesUA] at h
    have hrest := ih h
    cases rest with
    | nil => simp
    | cons z zs =>
      refine List.Chain'.cons (by simp) (List.Chain'.cons ?_ hrest)
      cases z with
      | mk zr zc =>
        cases zr with
        | user => simp
        | assistant =>
          exfalso
          cases zs with
          | nil => simp [alternatesUA] at h
          | cons w ws =>
            cases w with
            | mk wr wc =>
              cases wr <;> simp [alternatesUA] at h
  | case3 t h0 h1 =>
    exfalso
    cases t with
    | nil => exact h0 rfl
    | cons x xs =>
      cases x with
      | mk role content =>
        cases role with
        | user =>
          cases xs with
          | nil => simp [alternatesUA] at h
          | cons y ys =>
            cases y with
            | mk role2 content2 =>
              cases role2 with
              | user => simp [alternatesUA] at h
              | assistant => exact h1 content content2 ys rfl
        | assistant => simp [alternatesUA] at h

theorem alternatesUA_append_pair (l : List Turn) (u a : String)
    (h : alternatesUA l = true) :
    alternatesUA (l ++ [⟨Role.user, u⟩, ⟨Role.assistant, a⟩]) = true := by
  induction l using alternatesUA.induct with
  | case1 => simp [alternatesUA]
  | case2 u1 a1 rest ih =>
    simp only [alternatesUA] at h
    simpa [alternatesUA] using ih h
  | case3 t h0 h1 =>
    exfalso
    cases t with
    | nil => exact h0 rfl
    | cons x xs =>
      cases x with
      | mk role content =>
        cases role with
        | user =>
          cases xs with
          | nil => simp [alternatesUA] at h
          | cons y ys =>
            cases y with
            | mk role2 content2 =>
              cases role2 with
              | user => simp [alternatesUA] at h
              | assistant => exact h1 content content2 ys rfl
        | assistant => simp [alternatesUA] at h

theorem getD_set_self {α : Type} (l : List α) (i : Nat) (v d : α)
    (h : i < l.length) : (l.set i v).getD i d = v := by
  induction l generalizing i with
  | nil => simp at h
  | cons x xs ih =>
    cases i with
    | zero => simp [List.set, List.getD]
    | succ j =>
      simp only [List.set, List.getD, List.getElem?_cons_succ]
      have hj : j < xs.length := by simpa using h
      simpa [List.getD] using ih j hj

theorem readRef_recordExchangeInPlace (h : PyHeap) (r : Nat) (u a : String)
    (hr : r < h.lists.length) :
    readRef (recordExchangeInPlace h r u a) r =
      readRef h r ++ [⟨Role.user, u⟩, ⟨Role.assistant, a⟩] := by
  unfold recordExchangeInPlace appendRef readRef
  have h1 : (h.lists.set r (h.lists.getD r [] ++ [⟨Role.user, u⟩])).getD r [] =
      h.lists.getD r [] ++ [(⟨Role.user, u⟩ : Turn)] :=
    getD_set_self h.lists r _ [] hr
  have hlen : r < (h.lists.set r (h.lists.getD r [] ++ [⟨Role.user, u⟩])).length := by
    simpa using hr
  rw [getD_set_self _ r _ [] hlen, h1, List.append_assoc]
  rfl

theorem recordExchange_eq (t : List Turn) (u a : String) :
    recordExchange t u a = t ++ [⟨Role.user, u⟩, ⟨Role.assistant, a⟩] := by
  unfold recordExchange
  rw [readRef_recordExchangeInPlace ⟨[t]⟩ 0 u a (by simp)]
  rfl

theorem chat_history_cases (llm : String → Except String String) (s : Session)
    (q : String) :
    (chat llm s q).1.chat_history = s.chat_history ∨
      ∃ r, (chat llm s q).1.chat_history =
        s.chat_history ++ [⟨Role.user, pyStrip q⟩, ⟨Role.assistant, r⟩] := by
  unfold chat
  cases hd : s.document_text with
  | none => exact Or.inl rfl
  | some doc =>
    by_cases hq : pyStrip q = ""
    · simp [hq]
    · simp only [hq, if_neg hq]
      cases hl : llm (analyze_prompt doc (s.chat_history ++ [⟨Role.user, pyStrip q⟩])) with
      | error e => exact Or.inl rfl
      | ok r => exact Or.inr ⟨r, by simp⟩

theorem upload_history_cases (f : Option UploadedFile) (s : Session) :
    (upload f s).1.chat_history = s.chat_history ∨ (upload f s).1.chat_history = [] := by
  unfold upload
  cases f with
  | none => exact Or.inl rfl
  | some file =>
    by_cases h1 : file.filename = ""
    · simp [h1]
    · simp only [if_neg h1]
      by_cases h2 : hasPdfExt file.filename
      · simp only [h2, not_true_eq_false, if_neg (by simp : ¬False)]
        cases hp : file.pages with
        | error e => exact Or.inl rfl
        | ok pages =>
          by_cases h3 : extract_text_from_pdf pages = ""
          · simp [h3]
          · simp [h3]
      · simp [h2]

theorem foldl_pages_eq (pages : List String) (init : String) :
    pages.foldl (fun text page_text => if page_text ≠ "" then text ++ page_text ++ "\n" else text) init
      = init ++ specPageConcat pages := by
  induction pages generalizing init with
  | nil => simp [specPageConcat]
  | cons p ps ih =>
    simp only [List.foldl_cons, specPageConcat]
    by_cases hp : p = ""
    · rw [if_neg (not_not_intro hp), if_pos hp, ih init]
      simp
    · rw [if_pos hp, if_neg hp, ih (init ++ p ++ "\n")]
      simp [String.append_assoc]

/-! ### Claim theorems -/

/-- C2: for every non-empty `documentText`, every transcript and every trimmed
non-empty `newUserMessage`, the prompt built for the model is exactly the fixed
system instructions, a delimited section holding `documentText` verbatim, each
prior Turn as `"<Role>: <content>"` in transcript order separated by blank
lines, the new user message rendered the same way, and the trailing cue
`"Assistant: "`. -/
theorem buildPrompt_layout (document_text : String) (transcript : List Turn)
    (msg : String) (_hdoc : document_text ≠ "") (_htrim : pyStrip msg = msg)
    (_hmsg : msg ≠ "") :
    analyze_prompt document_text (transcript ++ [⟨Role.user, msg⟩]) =
      SYSTEM_PROMPT ++ "\n\n--- DOCUMENT CONTENT ---\n" ++ document_text ++
        "\n--- END DOCUMENT ---\n\nBelow is the conversation so far. Continue naturally from here.\n\n"
        ++ (joinBlankSep ((transcript.map renderTurnLine)
              ++ [renderTurnLine ⟨Role.user, msg⟩]) ++ "\n\n")
        ++ "Assistant: " := by
  unfold analyze_prompt
  rw [foldl_renderTurn_append_one]
  rw [List.map_append]
  simp [String.append_assoc]

/-- C2 witness. -/
theorem buildPrompt_layout_witness :
    "DOC" ≠ "" ∧ pyStrip "hi" = "hi" ∧ "hi" ≠ "" ∧
    analyze_prompt "DOC"
        ([⟨Role.user, "q1"⟩, ⟨Role.assistant, "r1"⟩] ++ [⟨Role.user, "hi"⟩]) =
      SYSTEM_PROMPT ++ "\n\n--- DOCUMENT CONTENT ---\n" ++ "DOC" ++
        "\n--- END DOCUMENT ---\n\nBelow is the conversation so far. Continue naturally from here.\n\n"
        ++ (joinBlankSep (([⟨Role.user, "q1"⟩, ⟨Role.assistant, "r1"⟩].map renderTurnLine)
              ++ [renderTurnLine ⟨Role.user, "hi"⟩]) ++ "\n\n")
        ++ "Assistant: " :=
  ⟨by decide, by decide, by decide,
    buildPrompt_layout "DOC" [⟨Role.user, "q1"⟩, ⟨Role.assistant, "r1"⟩] "hi"
      (by decide) (by decide) (by decide)⟩

/-- C3 counterexample: the two appends of `chat` mutate the history object in
place, so the caller's original reference does not keep its old value — here a
reference to `[]` observes two turns afterwards. -/
theorem recordExchange_mutation_counterexample :
    ¬ (readRef (recordExchangeInPlace ⟨[[]]⟩ 0 "u" "a") 0
        = readRef (⟨[[]]⟩ : PyHeap) 0) := by
  decide

/-- C3 (amended): recording an exchange appends the user Turn then the
assistant Turn to the caller's sequence in place; afterwards the caller's
original reference observes T followed by the two new turns (the stored and
returned sequence are the same object). -/
theorem recordExchange_inPlace_spec (h : PyHeap) (r : Nat) (u a : String)
    (hr : r < h.lists.length) :
    readRef (recordExchangeInPlace h r u a) r =
      readRef h r ++ [⟨Role.user, u⟩, ⟨Role.assistant, a⟩] :=
  readRef_recordExchangeInPlace h r u a hr

/-- C3 witness. -/
theorem recordExchange_inPlace_spec_witness :
    0 < (PyHeap.mk [[⟨Role.user, "q"⟩, ⟨Role.assistant, "r"⟩]]).lists.length ∧
    readRef (recordExchangeInPlace ⟨[[⟨Role.user, "q"⟩, ⟨Role.assistant, "r"⟩]]⟩ 0 "u" "a") 0 =
      readRef (⟨[[⟨Role.user, "q"⟩, ⟨Role.assistant, "r"⟩]]⟩ : PyHeap) 0
        ++ [⟨Role.user, "u"⟩, ⟨Role.assistant, "a"⟩] :=
  ⟨by decide,
    recordExchange_inPlace_spec ⟨[[⟨Role.user, "q"⟩, ⟨Role.assistant, "r"⟩]]⟩ 0 "u" "a"
      (by decide)⟩

/-- C5: replaying `recordExchange` twice reconstructs the transcript built
turn by turn: T, then user u1, assistant a1, user u2, assistant a2. -/
theorem recordExchange_replay (t : List Turn) (u1 a1 u2 a2 : String) :
    recordExchange (recordExchange t u1 a1) u2 a2 =
      t ++ [⟨Role.user, u1⟩, ⟨Role.assistant, a1⟩,
            ⟨Role.user, u2⟩, ⟨Role.assistant, a2⟩] := by
  rw [recordExchange_eq, recordExchange_eq, List.append_assoc]
  rfl

/-- C8: with a document loaded, a blank (empty or whitespace-only) message
makes no model call (the outcome is the same for every llm), leaves the
session unchanged and surfaces the empty-message error. -/
theorem chat_blank_message (s : Session) (d : String)
    (hdoc : s.document_text = some d) (q : String) (hblank : pyStrip q = "") :
    ∀ llm, chat llm s q = (s, ChatResult.errEmptyMessage) := by
  intro llm
  unfold chat
  rw [hdoc]
  simp [hblank]

/-- C8 witness. -/
theorem chat_blank_message_witness :
    (Session.mk (some "DOC") "f.pdf" []).document_text = some "DOC" ∧
    pyStrip " \t\n " = "" ∧
    chat (fun _ => Except.ok "x") ⟨some "DOC", "f.pdf", []⟩ " \t\n " =
      (⟨some "DOC", "f.pdf", []⟩, ChatResult.errEmptyMessage) :=
  ⟨rfl, by decide,
    chat_blank_message ⟨some "DOC", "f.pdf", []⟩ "DOC" rfl " \t\n " (by decide)
      (fun _ => Except.ok "x")⟩

/-- C9: with no document in the session, a chat request yields the
no-document error, makes no model call (the outcome is the same for every
llm) and leaves the session unchanged. -/
theorem chat_no_document (s : Session) (h : s.document_text = none)
    (q : String) :
    ∀ llm, chat llm s q = (s, ChatResult.errNoDocument) := by
  intro llm
  unfold chat
  rw [h]

/-- C9 witness. -/
theorem chat_no_document_witness :
    (Session.mk none "" []).document_text = none ∧
    chat (fun _ => Except.ok "x") ⟨none, "", []⟩ "hello" =
      (⟨none, "", []⟩, ChatResult.errNoDocument) :=
  ⟨rfl, chat_no_document ⟨none, "", []⟩ rfl "hello" (fun _ => Except.ok "x")⟩

/-- C1: if the model call fails, the persisted session — in particular its
stored transcript — is exactly as before the attempted turn (the triggering
user message is not appended), and a subsequent chat request behaves exactly
as one issued from the pre-failure state. -/
theorem chat_model_failure_preserves (llm : String → Except String String)
    (s : Session) (q e : String)
    (h : (chat llm s q).2 = ChatResult.errModel e) :
    (chat llm s q).1 = s ∧ (chat llm s q).1.chat_history = s.chat_history ∧
      ∀ llm2 q2, chat llm2 (chat llm s q).1 q2 = chat llm2 s q2 := by
  have hs : (chat llm s q).1 = s := by
    unfold chat at h ⊢
    cases hd : s.document_text with
    | none => rfl
    | some doc =>
      rw [hd] at h
      by_cases hq : pyStrip q = ""
      · simp [hq]
      · simp only [if_neg hq] at h ⊢
        cases hl : llm (analyze_prompt doc (s.chat_history ++ [⟨Role.user, pyStrip q⟩])) with
        | error e2 => simp [hl]
        | ok r =>
          rw [hl] at h
          simp at h
  refine ⟨hs, by rw [hs], ?_⟩
  intro llm2 q2
  rw [hs]

/-- C1 witness. -/
theorem chat_model_failure_preserves_witness :
    (chat (fun _ => Except.error "boom")
        ⟨some "DOC", "f.pdf", [⟨Role.user, "q"⟩, ⟨Role.assistant, "r"⟩]⟩ "next").2 =
      ChatResult.errModel "boom" ∧
    (chat (fun _ => Except.error "boom")
        ⟨some "DOC", "f.pdf", [⟨Role.user, "q"⟩, ⟨Role.assistant, "r"⟩]⟩ "next").1 =
      ⟨some "DOC", "f.pdf", [⟨Role.user, "q"⟩, ⟨Role.assistant, "r"⟩]⟩ :=
  ⟨by decide,
    (chat_model_failure_preserves (fun _ => Except.error "boom")
      ⟨some "DOC", "f.pdf", [⟨Role.user, "q"⟩, ⟨Role.assistant, "r"⟩]⟩ "next" "boom"
      (by decide)).1⟩

/-- C6: a second successful upload fully replaces the stored document text and
filename with the new ones and resets the transcript to the empty sequence. -/
theorem upload_replaces_document (s : Session) (f : UploadedFile) (d : String)
    (_hdoc : s.document_text = some d) (_hne : s.chat_history ≠ [])
    (hok : (upload (some f) s).2 = UploadResult.ok) :
    ∃ pages, f.pages = Except.ok pages ∧
      (upload (some f) s).1 =
        { document_text := some (extract_text_from_pdf pages),
          filename := f.filename, chat_history := [] } := by
  unfold upload at hok ⊢
  by_cases h1 : f.filename = ""
  · simp [h1] at hok
  · simp only [if_neg h1] at hok ⊢
    by_cases h2 : hasPdfExt f.filename
    · simp only [h2, not_true_eq_false, if_false] at hok ⊢
      cases hp : f.pages with
      | error e =>
        rw [hp] at hok
        simp at hok
      | ok pages =>
        rw [hp] at hok
        by_cases h3 : extract_text_from_pdf pages = ""
        · simp [h3] at hok
        · exact ⟨pages, rfl, by simp [h3]⟩
    · simp [h2] at hok

/-- C6 witness. -/
theorem upload_replaces_document_witness :
    (Session.mk (some "OLD") "old.pdf" [⟨Role.user, "q"⟩, ⟨Role.assistant, "r"⟩]).document_text
        = some "OLD" ∧
    (Session.mk (some "OLD") "old.pdf" [⟨Role.user, "q"⟩, ⟨Role.assistant, "r"⟩]).chat_history
        ≠ [] ∧
    (upload (some ⟨"new.pdf", Except.ok ["New text."]⟩)
        ⟨some "OLD", "old.pdf", [⟨Role.user, "q"⟩, ⟨Role.assistant, "r"⟩]⟩).2
        = UploadResult.ok ∧
    ∃ pages, (UploadedFile.mk "new.pdf" (Except.ok ["New text."])).pages = Except.ok pages ∧
      (upload (some ⟨"new.pdf", Except.ok ["New text."]⟩)
          ⟨some "OLD", "old.pdf", [⟨Role.user, "q"⟩, ⟨Role.assistant, "r"⟩]⟩).1 =
        { document_text := some (extract_text_from_pdf pages),
          filename := "new.pdf", chat_history := [] } :=
  ⟨rfl, by decide, by decide,
    upload_replaces_document
      ⟨some "OLD", "old.pdf", [⟨Role.user, "q"⟩, ⟨Role.assistant, "r"⟩]⟩
      ⟨"new.pdf", Except.ok ["New text."]⟩ "OLD" rfl (by decide) (by decide)⟩

/-- C10: the extracted document text is the stripped concatenation, in page
order, of each non-empty page text followed by a newline, and a well-formed
upload reports the extraction-empty error exactly when that stripped
concatenation is the empty string. -/
theorem extract_text_matches_spec (pages : List String) (s : Session)
    (f : UploadedFile) (h1 : f.filename ≠ "") (h2 : hasPdfExt f.filename = true)
    (hp : f.pages = Except.ok pages) :
    extract_text_from_pdf pages = pyStrip (specPageConcat pages) ∧
      ((upload (some f) s).2 = UploadResult.errExtractionEmpty ↔
        extract_text_from_pdf pages = "") := by
  constructor
  · unfold extract_text_from_pdf
    rw [foldl_pages_eq pages ""]
    simp
  · unfold upload
    simp only [if_neg h1, h2, not_true_eq_false, if_false]
    rw [hp]
    by_cases h3 : extract_text_from_pdf pages = ""
    · simp [h3]
    · simp [h3]

/-- C10 witness. -/
theorem extract_text_matches_spec_witness :
    (UploadedFile.mk "f.pdf" (Except.ok ["a", "", " b "])).filename ≠ "" ∧
    hasPdfExt "f.pdf" = true ∧
    (UploadedFile.mk "f.pdf" (Except.ok ["a", "", " b "])).pages
      = Except.ok ["a", "", " b "] ∧
    (extract_text_from_pdf ["a", "", " b "] = pyStrip (specPageConcat ["a", "", " b "]) ∧
      ((upload (some ⟨"f.pdf", Except.ok ["a", "", " b "]⟩) initSession).2
          = UploadResult.errExtractionEmpty ↔
        extract_text_from_pdf ["a", "", " b "] = "")) :=
  ⟨by decide, by decide, rfl,
    extract_text_matches_spec ["a", "", " b "] initSession
      ⟨"f.pdf", Except.ok ["a", "", " b "]⟩ (by decide) (by decide) rfl⟩

theorem chat_ok_growth (llm : String → Except String String) (s : Session)
    (q : String) (hist : List Turn)
    (h : (chat llm s q).2 = ChatResult.ok hist) :
    ∃ r, (chat llm s q).1.chat_history =
      s.chat_history ++ [⟨Role.user, pyStrip q⟩, ⟨Role.assistant, r⟩] := by
  unfold chat at h ⊢
  cases hd : s.document_text with
  | none =>
    rw [hd] at h
    simp at h
  | some doc =>
    rw [hd] at h
    by_cases hq : pyStrip q = ""
    · simp [hq] at h
    · simp only [if_neg hq] at h ⊢
      cases hl : llm (analyze_prompt doc (s.chat_history ++ [⟨Role.user, pyStrip q⟩])) with
      | error e =>
        rw [hl] at h
        simp at h
      | ok r => exact ⟨r, by simp⟩

theorem stepS_preserves_alternatesUA (s : Session) (e : Event)
    (h : alternatesUA s.chat_history = true) :
    alternatesUA (stepS s e).chat_history = true := by
  cases e with
  | upload f =>
    show alternatesUA (upload f s).1.chat_history = true
    rcases upload_history_cases f s with hc | hc
    · rw [hc]; exact h
    · rw [hc]; rfl
  | chat llm q =>
    show alternatesUA (chat llm s q).1.chat_history = true
    rcases chat_history_cases llm s q with hc | ⟨r, hc⟩
    · rw [hc]; exact h
    · rw [hc]; exact alternatesUA_append_pair _ _ _ h
  | reset => rfl

theorem runEvents_alternatesUA (es : List Event) :
    alternatesUA (runEvents es).chat_history = true := by
  have H : ∀ s, alternatesUA s.chat_history = true →
      alternatesUA (es.foldl stepS s).chat_history = true := by
    induction es with
    | nil => intro s hs; exact hs
    | cons e rest ih =>
      intro s hs
      exact ih _ (stepS_preserves_alternatesUA s e hs)
  exact H initSession rfl

/-- C4: in every session state reachable by any sequence of completed
operations, the stored transcript has even length and no two consecutive
Turns share a role; and from any reachable state, a successful chat turn
grows the transcript by exactly one user Turn followed by one assistant
Turn. -/
theorem reachable_transcript_invariant (es : List Event) :
    ((runEvents es).chat_history.length % 2 = 0 ∧
      List.Chain' (fun a b : Turn => a.role ≠ b.role) (runEvents es).chat_history) ∧
    ∀ llm q hist, (chat llm (runEvents es) q).2 = ChatResult.ok hist →
      ∃ r, (chat llm (runEvents es) q).1.chat_history =
        (runEvents es).chat_history ++ [⟨Role.user, pyStrip q⟩, ⟨Role.assistant, r⟩] := by
  have halt := runEvents_alternatesUA es
  exact ⟨⟨alternatesUA_even _ halt, alternatesUA_chain _ halt⟩,
    fun llm q hist h => chat_ok_growth llm (runEvents es) q hist h⟩

/-- A concrete successful upload event, used by witnesses. -/
def trUpload : Event := Event.upload (some ⟨"f.pdf", Except.ok ["Hello world."]⟩)

/-- A concrete always-succeeding llm, used by witnesses. -/
def llmOk : String → Except String String := fun _ => Except.ok "This document says hello."

/-- C4 witness. -/
theorem reachable_transcript_invariant_witness :
    ((runEvents [trUpload]).chat_history.length % 2 = 0 ∧
      List.Chain' (fun a b : Turn => a.role ≠ b.role) (runEvents [trUpload]).chat_history) ∧
    ∃ r, (chat llmOk (runEvents [trUpload]) "Summarize this.").1.chat_history =
      (runEvents [trUpload]).chat_history ++
        [⟨Role.user, pyStrip "Summarize this."⟩, ⟨Role.assistant, r⟩] :=
  ⟨(reachable_transcript_invariant [trUpload]).1,
    (reachable_transcript_invariant [trUpload]).2 llmOk "Summarize this."
      [⟨Role.user, "Summarize this."⟩, ⟨Role.assistant, "This document says hello."⟩]
      (by decide)⟩

theorem upload_state_cases (f : Option UploadedFile) (s : Session) :
    (upload f s).1 = s ∨ ∃ d, (upload f s).1.document_text = some d := by
  unfold upload
  cases f with
  | none => exact Or.inl rfl
  | some file =>
    by_cases h1 : file.filename = ""
    · simp [h1]
    · simp only [if_neg h1]
      by_cases h2 : hasPdfExt file.filename
      · simp only [h2, not_true_eq_false, if_false]
        cases hp : file.pages with
        | error e => exact Or.inl rfl
        | ok pages =>
          by_cases h3 : extract_text_from_pdf pages = ""
          · simp [h3]
          · simp [h3]
      · simp [h2]

theorem chat_state_cases (llm : String → Except String String) (s : Session)
    (q : String) :
    (chat llm s q).1 = s ∨
      ((chat llm s q).1.document_text = s.document_text ∧ s.document_text ≠ none) := by
  unfold chat
  cases hd : s.document_text with
  | none => exact Or.inl rfl
  | some doc =>
    by_cases hq : pyStrip q = ""
    · simp [hq]
    · simp only [if_neg hq]
      cases llm (analyze_prompt doc (s.chat_history ++ [⟨Role.user, pyStrip q⟩])) with
      | error e => exact Or.inl rfl
      | ok r => exact Or.inr ⟨by simp [hd], by simp [hd]⟩

theorem stepS_preserves_docInv (s : Session) (e : Event)
    (h : s.chat_history ≠ [] → s.document_text ≠ none) :
    (stepS s e).chat_history ≠ [] → (stepS s e).document_text ≠ none := by
  cases e with
  | upload f =>
    show (upload f s).1.chat_history ≠ [] → (upload f s).1.document_text ≠ none
    rcases upload_state_cases f s with hc | ⟨d, hc⟩
    · rw [hc]; exact h
    · intro _; rw [hc]; exact Option.some_ne_none d
  | chat llm q =>
    show (chat llm s q).1.chat_history ≠ [] → (chat llm s q).1.document_text ≠ none
    rcases chat_state_cases llm s q with hc | ⟨hc, hd⟩
    · rw [hc]; exact h
    · intro _; rw [hc]; exact hd
  | reset =>
    intro hne
    exact absurd rfl hne

theorem foldl_preserves_docInv (es : List Event) :
    ∀ s, (s.chat_history ≠ [] → s.document_text ≠ none) →
      ((es.foldl stepS s).chat_history ≠ [] → (es.foldl stepS s).document_text ≠ none) := by
  induction es with
  | nil => intro s hs; exact hs
  | cons e rest ih =>
    intro s hs
    exact ih (stepS s e) (stepS_preserves_docInv s e hs)

/-- C7: in every session state reachable by any sequence of operations, a
non-empty stored transcript implies a document is present in the session. -/
theorem transcript_nonempty_implies_document (es : List Event)
    (h : (runEvents es).chat_history ≠ []) :
    (runEvents es).document_text ≠ none :=
  foldl_preserves_docInv es initSession (fun hne => absurd rfl hne) h

/-- C7 witness. -/
theorem transcript_nonempty_implies_document_witness :
    (runEvents [trUpload, Event.chat llmOk "hi"]).chat_history ≠ [] ∧
    (runEvents [trUpload, Event.chat llmOk "hi"]).document_text ≠ none :=
  ⟨by decide, transcript_nonempty_implies_document [trUpload, Event.chat llmOk "hi"] (by decide)⟩
